import Mathlib

/-!
Verification of the ChaCha20 quarter-round core (src/crpyto/chacha20.py).

The source is a small Python module: three word operations (add, xor,
left_roll) on 32-bit words represented as unbounded integers masked to
32 bits, the standalone quarter round, and a ChaChaState dataclass
wrapping a 16-element array with indexed get/set and an in-place
quarter-round method.

Words are embedded as Nat (Python ints are unbounded; the code masks with
0xFFFFFFFF where needed).  Indexed access follows Python sequence
semantics: a negative index i addresses position len + i, and an index
outside the interval from -len to len - 1 raises IndexError, embedded
here as Option.none.
-/

namespace Crpyto

/-- Embeds add(a, b) = (a + b) & 0xFFFFFFFF. -/
def add (a b : Nat) : Nat := (a + b) &&& 0xFFFFFFFF

/-- Embeds xor(a, b) = a ^ b. -/
def xor (a b : Nat) : Nat := a ^^^ b

/-- Embeds left_roll(x, c) = ((x << c) | (x >> (32 - c))) & 0xFFFFFFFF. -/
def left_roll (x c : Nat) : Nat := ((x <<< c) ||| (x >>> (32 - c))) &&& 0xFFFFFFFF

/-- Embeds chacha_quarter_round: the four add/xor/roll steps, each step
reusing the running values produced by the previous one, returning
(a, b, c, d). -/
def chacha_quarter_round (a b c d : Nat) : Nat × Nat × Nat × Nat :=
  let a := add a b; let d := xor d a; let d := left_roll d 16
  let c := add c d; let b := xor b c; let b := left_roll b 12
  let a := add a b; let d := xor d a; let d := left_roll d 8
  let c := add c d; let b := xor b c; let b := left_roll b 7
  (a, b, c, d)

/-- Python sequence index resolution, as used by array subscripting: a
negative index i refers to len + i; an index outside the resulting
bounds raises IndexError (none). -/
def pyIndex (len : Nat) (i : Int) : Option Nat :=
  let j : Int := if i < 0 then i + len else i
  if 0 ≤ j ∧ j < (len : Int) then some j.toNat else none

/-- Embeds the ChaChaState dataclass: a wrapper around an array of words.
The Python constructor accepts any array supplied by the caller. -/
structure ChaChaState where state : List Nat

deriving instance DecidableEq for ChaChaState

/-- Embeds the dataclass default factory: array of 16 zero words. -/
def ChaChaState.init : ChaChaState := ⟨List.replicate 16 0⟩

/-- Embeds ChaChaState getitem: self.state[index] with Python array
indexing (IndexError becomes none). -/
def ChaChaState.getitem (s : ChaChaState) (i : Int) : Option Nat :=
  (pyIndex s.state.length i).map fun j => s.state.getD j 0

/-- Embeds ChaChaState setitem: self.state[index] = value with Python
array indexing (IndexError becomes none). -/
def ChaChaState.setitem (s : ChaChaState) (i : Int) (v : Nat) : Option ChaChaState :=
  (pyIndex s.state.length i).map fun j => ⟨s.state.set j v⟩

/-- Embeds ChaChaState.quarter_round(x, y, z, w): Python first evaluates
the right-hand tuple chacha_quarter_round(self[x], self[y], self[z],
self[w]) against the pre-call state, then performs the four indexed
assignments left to right. -/
def ChaChaState.quarter_round (s : ChaChaState) (x y z w : Int) : Option ChaChaState := do
  let a ← s.getitem x
  let b ← s.getitem y
  let c ← s.getitem z
  let d ← s.getitem w
  let r := chacha_quarter_round a b c d
  let s1 ← s.setitem x r.1
  let s2 ← s1.setitem y r.2.1
  let s3 ← s2.setitem z r.2.2.1
  s3.setitem w r.2.2.2

/-- Modelled from the spec's words (section 4.1): rotate_left(x, n) on a
32-bit word is ((x << n) | (x >> (32 - n))) mod 2^32.  Spec-side
definition for the refinement claim C1; to be compared with left_roll. -/
def spec_rotate_left (x n : Nat) : Nat := ((x <<< n) ||| (x >>> (32 - n))) % 2 ^ 32

/-- Modelled from the spec's words (section 4.1): the four-step
quarter-round sequence with additions taken mod 2^32, XOR, and
spec_rotate_left, each step using the running values of the previous
step, returning (a, b, c, d).  Spec-side definition for claim C1. -/
def spec_quarter_round (a b c d : Nat) : Nat × Nat × Nat × Nat :=
  let a := (a + b) % 2 ^ 32; let d := d ^^^ a; let d := spec_rotate_left d 16
  let c := (c + d) % 2 ^ 32; let b := b ^^^ c; let b := spec_rotate_left b 12
  let a := (a + b) % 2 ^ 32; let d := d ^^^ a; let d := spec_rotate_left d 8
  let c := (c + d) % 2 ^ 32; let b := b ^^^ c; let b := spec_rotate_left b 7
  (a, b, c, d)

/-- The sample state of test_state. -/
def sampleState : ChaChaState := ⟨[
  0x879531e0, 0xc5ecf37d, 0x516461b1, 0xc9a62f8a,
  0x44c20ef3, 0x3390af7f, 0xd9fc690b, 0x2a5f714c,
  0x53372767, 0xb00a5631, 0x974c541a, 0x359e9963,
  0x5c971061, 0x3d631689, 0x2098d9d6, 0x91dbd320]⟩

/-- The expected state of test_state. -/
def sampleExpected : ChaChaState := ⟨[
  0x879531e0, 0xc5ecf37d, 0xbdb886dc, 0xc9a62f8a,
  0x44c20ef3, 0x3390af7f, 0xd9fc690b, 0xcfacafd2,
  0xe46bea80, 0xb00a5631, 0x974c541a, 0x359e9963,
  0x5c971061, 0xccc07c79, 0x2098d9d6, 0x91dbd320]⟩

theorem mask_eq_mod (x : Nat) : x &&& 0xFFFFFFFF = x % 2 ^ 32 := by
  have h : (0xFFFFFFFF : Nat) = 2 ^ 32 - 1 := by norm_num
  rw [h, Nat.and_pow_two_sub_one_eq_mod]

/-- C4: the standalone quarter round on the RFC test vector returns
exactly (0xea2a92f4, 0xcb1cf8ce, 0x4581472e, 0x5881c4bb). -/
theorem quarter_round_vector :
    chacha_quarter_round 0x11111111 0x01020304 0x9b8d6f43 0x01234567 =
      (0xea2a92f4, 0xcb1cf8ce, 0x4581472e, 0x5881c4bb) := by decide

/-- C2: applying the state quarter round with indices (2, 7, 8, 13) to
the sample state updates indices 2, 7, 8, 13 to 0xbdb886dc, 0xcfacafd2,
0xe46bea80, 0xccc07c79 and leaves the other 12 words unchanged. -/
theorem state_vector :
    sampleState.quarter_round 2 7 8 13 = some sampleExpected := by decide

/-- C1: for all 32-bit words, chacha_quarter_round agrees with the
spec's four-step sequence written with mod-2^32 additions and the spec's
rotate_left; masking with 0xFFFFFFFF coincides with reduction mod 2^32. -/
theorem quarter_round_matches_spec (a b c d : Nat)
    (ha : a < 2 ^ 32) (hb : b < 2 ^ 32) (hc : c < 2 ^ 32) (hd : d < 2 ^ 32) :
    chacha_quarter_round a b c d = spec_quarter_round a b c d := by
  simp only [chacha_quarter_round, spec_quarter_round, add, xor, left_roll,
    spec_rotate_left, mask_eq_mod]

/-- Witness for C1 at the concrete input (1, 2, 3, 4). -/
theorem quarter_round_matches_spec_holds :
    (1 : Nat) < 2 ^ 32 ∧ (2 : Nat) < 2 ^ 32 ∧ (3 : Nat) < 2 ^ 32 ∧ (4 : Nat) < 2 ^ 32 ∧
      chacha_quarter_round 1 2 3 4 = spec_quarter_round 1 2 3 4 :=
  ⟨by decide, by decide, by decide, by decide,
    quarter_round_matches_spec 1 2 3 4 (by decide) (by decide) (by decide) (by decide)⟩

/-- C5: for 32-bit words whose sum reaches 2^32, add wraps around to the
sum mod 2^32, and in particular add 0xFFFFFFFF 1 = 0. -/
theorem add_wraparound (a b : Nat) (ha : a < 2 ^ 32) (hb : b < 2 ^ 32)
    (hab : 2 ^ 32 ≤ a + b) :
    add a b = (a + b) % 2 ^ 32 ∧ add 0xFFFFFFFF 1 = 0 :=
  ⟨mask_eq_mod (a + b), by decide⟩

/-- Witness for C5 at the boundary input (0xFFFFFFFF, 1). -/
theorem add_wraparound_holds :
    (0xFFFFFFFF : Nat) < 2 ^ 32 ∧ (1 : Nat) < 2 ^ 32 ∧ 2 ^ 32 ≤ 0xFFFFFFFF + 1 ∧
      (add 0xFFFFFFFF 1 = (0xFFFFFFFF + 1) % 2 ^ 32 ∧ add 0xFFFFFFFF 1 = 0) :=
  ⟨by decide, by decide, by decide,
    add_wraparound 0xFFFFFFFF 1 (by decide) (by decide) (by decide)⟩

theorem left_roll_eq_rotate (x c : Nat) (hx : x < 2 ^ 32) (hc0 : 0 < c) (hc : c < 32) :
    left_roll x c = x % 2 ^ (32 - c) * 2 ^ c + x / 2 ^ (32 - c) := by
  have hsplit : 2 ^ c * 2 ^ (32 - c) = 2 ^ 32 := by
    rw [← pow_add]
    congr 1
    omega
  have hq : x / 2 ^ (32 - c) < 2 ^ c := by
    rw [Nat.div_lt_iff_lt_mul (Nat.two_pow_pos (32 - c))]
    calc x < 2 ^ 32 := hx
    _ = 2 ^ c * 2 ^ (32 - c) := hsplit.symm
  have hr : x % 2 ^ (32 - c) < 2 ^ (32 - c) := Nat.mod_lt x (Nat.two_pow_pos (32 - c))
  have hlt : x % 2 ^ (32 - c) * 2 ^ c + x / 2 ^ (32 - c) < 2 ^ 32 := by
    calc x % 2 ^ (32 - c) * 2 ^ c + x / 2 ^ (32 - c)
        < x % 2 ^ (32 - c) * 2 ^ c + 2 ^ c := by omega
    _ = (x % 2 ^ (32 - c) + 1) * 2 ^ c := by ring
    _ ≤ 2 ^ (32 - c) * 2 ^ c := Nat.mul_le_mul_right _ (by omega)
    _ = 2 ^ 32 := by rw [mul_comm]; exact hsplit
  have hx' : x = 2 ^ (32 - c) * (x / 2 ^ (32 - c)) + x % 2 ^ (32 - c) :=
    (Nat.div_add_mod x (2 ^ (32 - c))).symm
  calc left_roll x c
      = (2 ^ c * x ||| x / 2 ^ (32 - c)) % 2 ^ 32 := by
        rw [left_roll, Nat.shiftLeft_eq, Nat.shiftRight_eq_div_pow, mask_eq_mod,
          Nat.mul_comm]
    _ = (2 ^ c * x + x / 2 ^ (32 - c)) % 2 ^ 32 := by
        rw [← Nat.mul_add_lt_is_or hq]
    _ = (x % 2 ^ (32 - c) * 2 ^ c + x / 2 ^ (32 - c) + 2 ^ 32 * (x / 2 ^ (32 - c))) % 2 ^ 32 := by
        congr 1
        calc 2 ^ c * x + x / 2 ^ (32 - c)
            = 2 ^ c * (2 ^ (32 - c) * (x / 2 ^ (32 - c)) + x % 2 ^ (32 - c)) +
              x / 2 ^ (32 - c) := by rw [← hx']
        _ = x % 2 ^ (32 - c) * 2 ^ c + x / 2 ^ (32 - c) +
              2 ^ c * 2 ^ (32 - c) * (x / 2 ^ (32 - c)) := by ring
        _ = _ := by rw [hsplit]
    _ = (x % 2 ^ (32 - c) * 2 ^ c + x / 2 ^ (32 - c)) % 2 ^ 32 := by
        rw [Nat.add_mul_mod_self_left]
    _ = x % 2 ^ (32 - c) * 2 ^ c + x / 2 ^ (32 - c) := Nat.mod_eq_of_lt hlt

theorem left_roll_lt (x c : Nat) (hx : x < 2 ^ 32) (hc0 : 0 < c) (hc : c < 32) :
    left_roll x c < 2 ^ 32 := by
  rw [left_roll, mask_eq_mod]
  exact Nat.mod_lt _ (Nat.two_pow_pos 32)

theorem left_roll_left_roll (n x : Nat) (hn0 : 0 < n) (hn : n < 32) (hx : x < 2 ^ 32) :
    left_roll (left_roll x n) (32 - n) = x := by
  have h32 : 32 - (32 - n) = n := by omega
  have hsplit : 2 ^ n * 2 ^ (32 - n) = 2 ^ 32 := by
    rw [← pow_add]
    congr 1
    omega
  have hq : x / 2 ^ (32 - n) < 2 ^ n := by
    rw [Nat.div_lt_iff_lt_mul (Nat.two_pow_pos (32 - n))]
    calc x < 2 ^ 32 := hx
    _ = 2 ^ n * 2 ^ (32 - n) := hsplit.symm
  rw [left_roll_eq_rotate x n hx hn0 hn,
    left_roll_eq_rotate _ (32 - n)
      (by rw [← left_roll_eq_rotate x n hx hn0 hn]; exact left_roll_lt x n hx hn0 hn)
      (by omega) (by omega),
    h32]
  have e1 : (x % 2 ^ (32 - n) * 2 ^ n + x / 2 ^ (32 - n)) % 2 ^ n = x / 2 ^ (32 - n) := by
    rw [mul_comm, Nat.mul_add_mod, Nat.mod_eq_of_lt hq]
  have e2 : (x % 2 ^ (32 - n) * 2 ^ n + x / 2 ^ (32 - n)) / 2 ^ n = x % 2 ^ (32 - n) := by
    rw [mul_comm, Nat.mul_add_div (Nat.two_pow_pos n), Nat.div_eq_of_lt hq, Nat.add_zero]
  rw [e1, e2, mul_comm, Nat.div_add_mod]

/-- C6: for every rotation amount n in the set 7, 8, 12, 16 and every
32-bit word x, left rotation by n followed by left rotation by 32 - n
returns x. -/
theorem rotation_bijective (n x : Nat)
    (hn : n = 7 ∨ n = 8 ∨ n = 12 ∨ n = 16) (hx : x < 2 ^ 32) :
    left_roll (left_roll x n) (32 - n) = x := by
  rcases hn with h | h | h | h <;> subst h <;>
    exact left_roll_left_roll _ x (by omega) (by omega) hx

/-- Witness for C6 at n = 7, x = 0x7998bfda. -/
theorem rotation_bijective_holds :
    ((7 : Nat) = 7 ∨ (7 : Nat) = 8 ∨ (7 : Nat) = 12 ∨ (7 : Nat) = 16) ∧
      (0x7998bfda : Nat) < 2 ^ 32 ∧
      left_roll (left_roll 0x7998bfda 7) (32 - 7) = 0x7998bfda :=
  ⟨by decide, by decide, rotation_bijective 7 0x7998bfda (by decide) (by decide)⟩

theorem pyIndex_coe (len j : Nat) (hj : j < len) : pyIndex len (j : Int) = some j := by
  simp only [pyIndex]
  rw [show (if (j : Int) < 0 then (j : Int) + len else (j : Int)) = (j : Int) from
    if_neg (by omega)]
  rw [if_pos ⟨by omega, by omega⟩]
  simp

theorem getitem_coe (s : ChaChaState) (j : Nat) (hj : j < s.state.length) :
    s.getitem (j : Int) = some (s.state.getD j 0) := by
  rw [ChaChaState.getitem, pyIndex_coe _ _ hj, Option.map_some']

theorem setitem_coe (s : ChaChaState) (j : Nat) (hj : j < s.state.length) (v : Nat) :
    s.setitem (j : Int) v = some ⟨s.state.set j v⟩ := by
  rw [ChaChaState.setitem, pyIndex_coe _ _ hj, Option.map_some']

theorem quarter_round_of_lt (s : ChaChaState) (x y z w : Nat)
    (hx : x < s.state.length) (hy : y < s.state.length) (hz : z < s.state.length)
    (hw : w < s.state.length) (a b c d : Nat)
    (hr : chacha_quarter_round (s.state.getD x 0) (s.state.getD y 0) (s.state.getD z 0)
      (s.state.getD w 0) = (a, b, c, d)) :
    s.quarter_round x y z w = some ⟨(((s.state.set x a).set y b).set z c).set w d⟩ := by
  rw [ChaChaState.quarter_round]
  simp only [Option.bind_eq_bind, getitem_coe s x hx, getitem_coe s y hy,
    getitem_coe s z hz, getitem_coe s w hw, Option.some_bind, hr]
  rw [setitem_coe s x hx a, Option.some_bind,
    setitem_coe ⟨s.state.set x a⟩ y (by simpa using hy) b, Option.some_bind,
    setitem_coe ⟨(s.state.set x a).set y b⟩ z (by simpa using hz) c, Option.some_bind,
    setitem_coe ⟨((s.state.set x a).set y b).set z c⟩ w (by simpa using hw) d]

/-- C10: the state quarter round, on in-range indices that need not be
distinct, reads all four inputs from the pre-call state and then writes
the four results to positions x, y, z, w in that left-to-right order, so
on overlapping indices the later write determines the final word. -/
theorem quarter_round_reads_then_writes (s : ChaChaState) (hs : s.state.length = 16)
    (x y z w : Nat) (hx : x < 16) (hy : y < 16) (hz : z < 16) (hw : w < 16)
    (a b c d : Nat)
    (hr : chacha_quarter_round (s.state.getD x 0) (s.state.getD y 0) (s.state.getD z 0)
      (s.state.getD w 0) = (a, b, c, d)) :
    s.quarter_round x y z w = some ⟨(((s.state.set x a).set y b).set z c).set w d⟩ :=
  quarter_round_of_lt s x y z w (by omega) (by omega) (by omega) (by omega) a b c d hr

/-- Witness for C10 on the all-zero state with the overlapping quadruple
(0, 0, 1, 1): the later writes to positions 0 and 1 win. -/
theorem quarter_round_reads_then_writes_holds :
    ChaChaState.init.state.length = 16 ∧ (0 : Nat) < 16 ∧ (1 : Nat) < 16 ∧
      chacha_quarter_round (ChaChaState.init.state.getD 0 0)
        (ChaChaState.init.state.getD 0 0) (ChaChaState.init.state.getD 1 0)
        (ChaChaState.init.state.getD 1 0) = (0, 0, 0, 0) ∧
      ChaChaState.init.quarter_round 0 0 1 1 =
        some ⟨(((ChaChaState.init.state.set 0 0).set 0 0).set 1 0).set 1 0⟩ :=
  ⟨by decide, by decide, by decide, by decide,
    quarter_round_reads_then_writes ChaChaState.init (by decide) 0 0 1 1
      (by decide) (by decide) (by decide) (by decide) 0 0 0 0 (by decide)⟩

theorem getD_set_ne (l : List Nat) (i j v : Nat) (h : i ≠ j) :
    (l.set i v).getD j 0 = l.getD j 0 := by
  rw [List.getD_eq_getElem?_getD, List.getD_eq_getElem?_getD, List.getElem?_set_ne h]

/-- C3: applying the state quarter round on any 16-word state with any
in-range quadruple leaves every word at an index outside the quadruple
unchanged. -/
theorem quarter_round_noninterference (s : ChaChaState) (hs : s.state.length = 16)
    (x y z w j : Nat) (hx : x < 16) (hy : y < 16) (hz : z < 16) (hw : w < 16)
    (hj : j < 16) (hjx : j ≠ x) (hjy : j ≠ y) (hjz : j ≠ z) (hjw : j ≠ w) :
    (s.quarter_round x y z w).map (fun t => t.state.getD j 0) =
      some (s.state.getD j 0) := by
  rw [quarter_round_of_lt s x y z w (by omega) (by omega) (by omega) (by omega)
    _ _ _ _ rfl, Option.map_some', getD_set_ne _ _ _ _ (Ne.symm hjw),
    getD_set_ne _ _ _ _ (Ne.symm hjz), getD_set_ne _ _ _ _ (Ne.symm hjy),
    getD_set_ne _ _ _ _ (Ne.symm hjx)]

/-- Witness for C3 on the all-zero state, quadruple (0, 4, 8, 12) and
spectator index 1. -/
theorem quarter_round_noninterference_holds :
    ChaChaState.init.state.length = 16 ∧
      ((1 : Nat) ≠ 0 ∧ (1 : Nat) ≠ 4 ∧ (1 : Nat) ≠ 8 ∧ (1 : Nat) ≠ 12) ∧
      (ChaChaState.init.quarter_round 0 4 8 12).map (fun t => t.state.getD 1 0) =
        some (ChaChaState.init.state.getD 1 0) :=
  ⟨by decide, ⟨by decide, by decide, by decide, by decide⟩,
    quarter_round_noninterference ChaChaState.init (by decide) 0 4 8 12 1
      (by decide) (by decide) (by decide) (by decide) (by decide)
      (by decide) (by decide) (by decide) (by decide)⟩

/-- C7 counterexample: the index -1 lies outside 0..15, yet getitem on
the sample state silently succeeds, returning the word at position 15 —
Python sequence indexing interprets -1 as len - 1, so access does not
fail for every index outside 0..15. -/
theorem getitem_neg_index_succeeds :
    sampleState.getitem (-1) = some 0x91dbd320 := by decide

theorem pyIndex_oob (len : Nat) (i : Int) (hi : i < -(len : Int) ∨ (len : Int) ≤ i) :
    pyIndex len i = none := by
  simp only [pyIndex]
  rcases hi with h | h
  · rw [show (if i < 0 then i + len else i) = i + len from if_pos (by omega)]
    rw [if_neg (by omega)]
  · rw [show (if i < 0 then i + len else i) = i from if_neg (by omega)]
    rw [if_neg (by omega)]

/-- C7 amended: on a 16-word state, an index below -16 or above 15 makes
getitem, setitem, and the quarter round (with that index as its first
position) fail with no ordinary result; indices -16..-1 are the ones
outside 0..15 that silently succeed, aliasing position 16 + i. -/
theorem state_access_oob (s : ChaChaState) (hs : s.state.length = 16)
    (i y z w : Int) (v : Nat) (hi : i < -16 ∨ 15 < i) :
    s.getitem i = none ∧ s.setitem i v = none ∧ s.quarter_round i y z w = none := by
  have hp : pyIndex s.state.length i = none := by
    rw [hs]
    exact pyIndex_oob 16 i (by push_cast; omega)
  have hg : s.getitem i = none := by rw [ChaChaState.getitem, hp]; rfl
  refine ⟨hg, ?_, ?_⟩
  · rw [ChaChaState.setitem, hp]; rfl
  · rw [ChaChaState.quarter_round, hg]
    rfl

/-- Witness for C7 amended at index 16 on the default state. -/
theorem state_access_oob_holds :
    ChaChaState.init.state.length = 16 ∧ ((16 : Int) < -16 ∨ (15 : Int) < 16) ∧
      (ChaChaState.init.getitem 16 = none ∧ ChaChaState.init.setitem 16 0 = none ∧
        ChaChaState.init.quarter_round 16 0 0 0 = none) :=
  ⟨by decide, by decide,
    state_access_oob ChaChaState.init (by decide) 16 0 0 0 0 (by decide)⟩

/-- C8 counterexample: the constructor accepts a word sequence of any
length, so a ChaChaState holding 3 words (not 16) is constructible. -/
theorem short_state_constructible :
    (ChaChaState.mk [0, 0, 0]).state.length ≠ 16 := by decide

theorem setitem_length (s : ChaChaState) (i : Int) (v : Nat) (t : ChaChaState)
    (h : s.setitem i v = some t) : t.state.length = s.state.length := by
  rw [ChaChaState.setitem] at h
  cases hp : pyIndex s.state.length i with
  | none => rw [hp] at h; exact absurd h (by simp)
  | some j =>
    rw [hp, Option.map_some'] at h
    cases h
    simp

theorem quarter_round_length (s : ChaChaState) (x y z w : Int) (t : ChaChaState)
    (h : s.quarter_round x y z w = some t) : t.state.length = s.state.length := by
  rw [ChaChaState.quarter_round] at h
  simp only [Option.bind_eq_bind, Option.bind_eq_some] at h
  obtain ⟨a, -, b, -, c, -, d, -, s1, h1, s2, h2, s3, h3, h4⟩ := h
  rw [setitem_length _ _ _ _ h4, setitem_length _ _ _ _ h3,
    setitem_length _ _ _ _ h2, setitem_length _ _ _ _ h1]

/-- C8 amended: a default-constructed state holds exactly 16 words, and
neither set-by-index nor the quarter round ever changes the number of
words (getitem does not modify the state); the constructor itself,
however, accepts a word sequence of any length. -/
theorem state_length_preserved (s : ChaChaState) (i x y z w : Int) (v : Nat) :
    ChaChaState.init.state.length = 16 ∧
      (s.setitem i v).elim True (fun t => t.state.length = s.state.length) ∧
      (s.quarter_round x y z w).elim True (fun t => t.state.length = s.state.length) := by
  refine ⟨by decide, ?_, ?_⟩
  · cases h : s.setitem i v with
    | none => trivial
    | some t => exact setitem_length s i v t h
  · cases h : s.quarter_round x y z w with
    | none => trivial
    | some t => exact quarter_round_length s x y z w t h

/-- C9: the standalone quarter round is a pure function of its four
arguments — two invocations on equal inputs return equal outputs, and
the result depends on nothing besides a, b, c, d. -/
theorem quarter_round_deterministic (a b c d a' b' c' d' : Nat)
    (h1 : a = a') (h2 : b = b') (h3 : c = c') (h4 : d = d') :
    chacha_quarter_round a b c d = chacha_quarter_round a' b' c' d' := by
  rw [h1, h2, h3, h4]

/-- Witness for C9 at the RFC vector input. -/
theorem quarter_round_deterministic_holds :
    (0x11111111 : Nat) = 0x11111111 ∧ (0x01020304 : Nat) = 0x01020304 ∧
      (0x9b8d6f43 : Nat) = 0x9b8d6f43 ∧ (0x01234567 : Nat) = 0x01234567 ∧
      chacha_quarter_round 0x11111111 0x01020304 0x9b8d6f43 0x01234567 =
        chacha_quarter_round 0x11111111 0x01020304 0x9b8d6f43 0x01234567 :=
  ⟨rfl, rfl, rfl, rfl,
    quarter_round_deterministic 0x11111111 0x01020304 0x9b8d6f43 0x01234567
      0x11111111 0x01020304 0x9b8d6f43 0x01234567 rfl rfl rfl rfl⟩

end Crpyto
